import Mathlib

/-!
Shallow embedding of the metrics windowing, aggregation and report-composition
pipeline of `src/statCollector.ts` (workflow-telemetry-action).

Raw numeric sample fields are modelled as `Option ℚ` (a field can be absent,
i.e. `undefined`, in the JSON payload delivered by the sampling daemon).
JavaScript number semantics that matter here (NaN, Infinity, division by
zero, `Math.max` with `undefined`) are captured by the `JNum` type.
External collaborators (the sampling daemon's query endpoints, the
chart-rendering service) are modelled as an environment record holding the
outcome of each call: a fetch either yields a sample array or throws
(`Except Unit`), a chart call either yields a `GraphResponse` or was caught
and yields `undefined` (`Option GraphResponse`).

Rational arithmetic is written through `mkRat`-based wrappers (`qAdd`,
`qMul`, `qNeg`, `qDiv`, `ratMax`, `ratFloorNat`) so that every definition
evaluates inside the kernel; the lemmas `qAdd_eq`, `qMul_eq`, `qNeg_eq`,
`qDiv_eq`, `ratMax_eq` and `ratFloorNat_eq` show these wrappers agree with
the standard field operations on `ℚ`.
-/

namespace StatCollector

/-! ### Kernel-reducible rational arithmetic -/

/-- Rational addition, via `mkRat` (kernel-reducible). -/
def qAdd (a b : ℚ) : ℚ := mkRat (a.num * b.den + b.num * a.den) (a.den * b.den)

/-- Rational multiplication, via `mkRat` (kernel-reducible). -/
def qMul (a b : ℚ) : ℚ := mkRat (a.num * b.num) (a.den * b.den)

/-- Rational negation, via `mkRat` (kernel-reducible). -/
def qNeg (a : ℚ) : ℚ := mkRat (-a.num) a.den

/-- Rational division, via `mkRat` (kernel-reducible); agrees with `a / b`
for `b ≠ 0`. -/
def qDiv (a b : ℚ) : ℚ :=
  mkRat (if 0 ≤ b.num then a.num * b.den else -(a.num * b.den)) (a.den * b.num.natAbs)

/-- Maximum of two rationals, written so that it reduces in the kernel. -/
def ratMax (a b : ℚ) : ℚ := if a < b then b else a

/-- Floor of a non-negative rational, as a natural number. -/
def ratFloorNat (q : ℚ) : ℕ := q.num.toNat / q.den

/-- Floor of a rational (`Int.fdiv` rounds toward negative infinity). -/
def ratFloorInt (q : ℚ) : ℤ := Int.fdiv q.num q.den

/-! ### JavaScript number semantics -/

/-- A JavaScript `number` restricted to the values this pipeline can produce:
a finite rational, `NaN`, `Infinity` or `-Infinity`. -/
inductive JNum where
  | nan : JNum
  | inf : JNum
  | ninf : JNum
  | num : ℚ → JNum
deriving DecidableEq, Repr

/-- Coercion of a possibly-absent numeric field into arithmetic context:
`undefined` becomes `NaN` (as in `Math.max(x, undefined)`). -/
def JNum.ofOption : Option ℚ → JNum
  | none => .nan
  | some q => .num q

/-- `Math.max` on two JS numbers: `NaN` is absorbing. -/
def jsMax : JNum → JNum → JNum
  | .nan, _ => .nan
  | _, .nan => .nan
  | .inf, _ => .inf
  | _, .inf => .inf
  | .ninf, b => b
  | a, .ninf => a
  | .num a, .num b => .num (ratMax a b)

/-- JS addition: `NaN` is absorbing, `Infinity + -Infinity = NaN`. -/
def jsAdd : JNum → JNum → JNum
  | .nan, _ => .nan
  | _, .nan => .nan
  | .inf, .ninf => .nan
  | .ninf, .inf => .nan
  | .inf, _ => .inf
  | _, .inf => .inf
  | .ninf, _ => .ninf
  | _, .ninf => .ninf
  | .num a, .num b => .num (qAdd a b)

/-- JS division. The case this pipeline actually hits is `0 / 0 = NaN`
(zero in-window samples); the rest follows IEEE-754 conventions
(the sign of zero is not modelled). -/
def jsDiv : JNum → JNum → JNum
  | .nan, _ => .nan
  | _, .nan => .nan
  | .inf, .inf => .nan
  | .inf, .ninf => .nan
  | .ninf, .inf => .nan
  | .ninf, .ninf => .nan
  | .inf, .num b => if b < 0 then .ninf else .inf
  | .ninf, .num b => if b < 0 then .inf else .ninf
  | .num _, .inf => .num 0
  | .num _, .ninf => .num 0
  | .num a, .num b =>
    if b = 0 then (if a = 0 then .nan else if 0 < a then .inf else .ninf)
    else .num (qDiv a b)

/-! ### Decimal rendering (`toFixed(2)`, `Math.round`) -/

/-- The decimal digit character for `n < 10`. -/
def digitChar (n : ℕ) : Char :=
  if n = 0 then '0' else if n = 1 then '1' else if n = 2 then '2' else if n = 3 then '3'
  else if n = 4 then '4' else if n = 5 then '5' else if n = 6 then '6' else if n = 7 then '7'
  else if n = 8 then '8' else '9'

/-- Decimal digits of `n`, accumulator style; `fuel ≥ 1 + n` suffices.
Structural recursion on the fuel keeps this kernel-reducible. -/
def natDigitsGo : ℕ → ℕ → List Char → List Char
  | 0, _, acc => acc
  | fuel + 1, n, acc =>
    if n < 10 then digitChar n :: acc
    else natDigitsGo fuel (n / 10) (digitChar (n % 10) :: acc)

/-- Render a natural number in decimal. -/
def natToString (n : ℕ) : String := String.mk (natDigitsGo (n + 1) n [])

/-- Render an integer in decimal. -/
def intToString (i : ℤ) : String :=
  if i < 0 then "-" ++ natToString (-i).toNat else natToString i.toNat

/-- `Number.prototype.toFixed(2)` on an exact rational: round the magnitude
half-up to two decimal places, prepend the sign. -/
def fixed2 (q : ℚ) : String :=
  let sign := if q < 0 then "-" else ""
  let a := if q < 0 then qNeg q else q
  let n : ℕ := ratFloorNat (qAdd (qMul a 100) (mkRat 1 2))
  sign ++ natToString (n / 100) ++ "." ++
    (if n % 100 < 10 then "0" else "") ++ natToString (n % 100)

/-- `toFixed(2)` on a JS number; `NaN.toFixed(2) = "NaN"`,
`Infinity.toFixed(2) = "Infinity"`. -/
def JNum.toFixed2 : JNum → String
  | .nan => "NaN"
  | .inf => "Infinity"
  | .ninf => "-Infinity"
  | .num q => fixed2 q

/-- `Math.round`: round half up. -/
def jsRound (q : ℚ) : ℤ := ratFloorInt (qAdd q (mkRat 1 2))

/-- The floor-to-zero guard `v && v > 0 ? v : 0` applied to a possibly-absent
field: absent, zero or negative values become `0`. -/
def floorVal : Option ℚ → ℚ
  | none => 0
  | some v => if 0 < v then v else 0

/-! ### Raw sample types (src/interfaces/index.ts) -/

/-- One raw CPU sample. -/
structure CPUStats where
  time : ℚ
  totalLoad : Option ℚ
  userLoad : Option ℚ
  systemLoad : Option ℚ
deriving DecidableEq, Repr

/-- One raw memory sample. -/
structure MemoryStats where
  time : ℚ
  totalMemoryMb : Option ℚ
  activeMemoryMb : Option ℚ
  availableMemoryMb : Option ℚ
deriving DecidableEq, Repr

/-- One raw network sample. -/
structure NetworkStats where
  time : ℚ
  rxMb : Option ℚ
  txMb : Option ℚ
deriving DecidableEq, Repr

/-- One raw disk sample. -/
structure DiskStats where
  time : ℚ
  rxMb : Option ℚ
  wxMb : Option ℚ
deriving DecidableEq, Repr

/-- One chart point `{x, y}`. -/
structure ProcessedStats where
  x : ℚ
  y : ℚ
deriving DecidableEq, Repr

/-- Result of `getCPUStats`. -/
structure ProcessedCPUStats where
  userLoadX : List ProcessedStats
  systemLoadX : List ProcessedStats
  cpuTableContent : List (List String)
deriving DecidableEq, Repr

/-- Result of `getMemoryStats`. -/
structure ProcessedMemoryStats where
  activeMemoryX : List ProcessedStats
  memoryTableContent : List (List String)
deriving DecidableEq, Repr

/-- Result of `getNetworkStats`. -/
structure ProcessedNetworkStats where
  networkReadX : List ProcessedStats
  networkWriteX : List ProcessedStats
  networkTableContent : List (List String)
deriving DecidableEq, Repr

/-- Result of `getDiskStats`. -/
structure ProcessedDiskStats where
  diskReadX : List ProcessedStats
  diskWriteX : List ProcessedStats
  diskTableContent : List (List String)
deriving DecidableEq, Repr

/-! ### CPU aggregator (`getCPUStats`, statCollector.ts lines 215-262) -/

/-- Accumulator for the `forEach` loop of `getCPUStats`. -/
structure CPUAcc where
  userLoadX : List ProcessedStats
  systemLoadX : List ProcessedStats
  maxUserValue : JNum
  sumUserValue : ℚ
  maxSystemValue : JNum
  sumSystemValue : ℚ
  times : ℕ
deriving Repr

/-- One iteration of the `getCPUStats` loop: skip out-of-window samples,
push floored series points, feed the raw field into `Math.max`, add the
floored value into the running sum. -/
def cpuStep (startTime endTime : ℚ) (acc : CPUAcc) (element : CPUStats) : CPUAcc :=
  if element.time < startTime ∨ element.time > endTime then acc
  else
    let userLoad := floorVal element.userLoad
    let systemLoad := floorVal element.systemLoad
    { userLoadX := acc.userLoadX ++ [⟨element.time, userLoad⟩]
      systemLoadX := acc.systemLoadX ++ [⟨element.time, systemLoad⟩]
      maxUserValue := jsMax acc.maxUserValue (JNum.ofOption element.userLoad)
      sumUserValue := qAdd acc.sumUserValue userLoad
      maxSystemValue := jsMax acc.maxSystemValue (JNum.ofOption element.systemLoad)
      sumSystemValue := qAdd acc.sumSystemValue systemLoad
      times := acc.times + 1 }

/-- The pure part of `getCPUStats`: aggregate the fetched CPU samples over
the window `[startTime, endTime]`. -/
def getCPUStats (data : List CPUStats) (startTime endTime : ℚ) : ProcessedCPUStats :=
  let acc := data.foldl (cpuStep startTime endTime)
    { userLoadX := [], systemLoadX := [], maxUserValue := .num 0, sumUserValue := 0,
      maxSystemValue := .num 0, sumSystemValue := 0, times := 0 }
  { userLoadX := acc.userLoadX
    systemLoadX := acc.systemLoadX
    cpuTableContent :=
      [["CPU(user)", acc.maxUserValue.toFixed2 ++ "%",
        (jsDiv (.num acc.sumUserValue) (.num acc.times)).toFixed2 ++ "%"],
       ["CPU(sys)", acc.maxSystemValue.toFixed2 ++ "%",
        (jsDiv (.num acc.sumSystemValue) (.num acc.times)).toFixed2 ++ "%"]] }

/-! ### Memory aggregator (`getMemoryStats`, statCollector.ts lines 265-306) -/

/-- Accumulator for the `forEach` loop of `getMemoryStats`. Note that the
used-memory maximum is taken over the floored value, while the capacity
maximum is fed the raw field and its running value is summed into
`sumTotalMemoryMb` at every retained sample. -/
structure MemAcc where
  activeMemoryX : List ProcessedStats
  maxUsedValue : ℚ
  sumUsedValue : ℚ
  totalMemoryMb : JNum
  sumTotalMemoryMb : JNum
  times : ℕ
deriving Repr

/-- One iteration of the `getMemoryStats` loop. -/
def memStep (startTime endTime : ℚ) (acc : MemAcc) (element : MemoryStats) : MemAcc :=
  if element.time < startTime ∨ element.time > endTime then acc
  else
    let activeMemoryMb := floorVal element.activeMemoryMb
    let newTotal := jsMax acc.totalMemoryMb (JNum.ofOption element.totalMemoryMb)
    { activeMemoryX := acc.activeMemoryX ++ [⟨element.time, activeMemoryMb⟩]
      maxUsedValue := ratMax acc.maxUsedValue activeMemoryMb
      sumUsedValue := qAdd acc.sumUsedValue activeMemoryMb
      totalMemoryMb := newTotal
      sumTotalMemoryMb := jsAdd acc.sumTotalMemoryMb newTotal
      times := acc.times + 1 }

/-- The pure part of `getMemoryStats`. -/
def getMemoryStats (data : List MemoryStats) (startTime endTime : ℚ) : ProcessedMemoryStats :=
  let acc := data.foldl (memStep startTime endTime)
    { activeMemoryX := [], maxUsedValue := 0, sumUsedValue := 0, totalMemoryMb := .num 0,
      sumTotalMemoryMb := .num 0, times := 0 }
  { activeMemoryX := acc.activeMemoryX
    memoryTableContent :=
      [["Memory",
        fixed2 acc.maxUsedValue ++ "M(" ++
          (jsDiv (.num acc.maxUsedValue) acc.totalMemoryMb).toFixed2 ++ "%)",
        (jsDiv (.num acc.sumUsedValue) (.num acc.times)).toFixed2 ++ "M(" ++
          (jsDiv (.num acc.sumUsedValue) acc.sumTotalMemoryMb).toFixed2 ++ "%)"]] }

/-! ### Network aggregator (`getNetworkStats`, statCollector.ts lines 309-353) -/

/-- Accumulator for the `forEach` loop of `getNetworkStats`. -/
structure NetAcc where
  networkReadX : List ProcessedStats
  networkWriteX : List ProcessedStats
  maxReadValue : JNum
  maxWriteValue : JNum
  times : ℕ
deriving Repr

/-- One iteration of the `getNetworkStats` loop. -/
def netStep (startTime endTime : ℚ) (acc : NetAcc) (element : NetworkStats) : NetAcc :=
  if element.time < startTime ∨ element.time > endTime then acc
  else
    let rxMb := floorVal element.rxMb
    let txMb := floorVal element.txMb
    { networkReadX := acc.networkReadX ++ [⟨element.time, rxMb⟩]
      networkWriteX := acc.networkWriteX ++ [⟨element.time, txMb⟩]
      maxReadValue := jsMax acc.maxReadValue (JNum.ofOption element.rxMb)
      maxWriteValue := jsMax acc.maxWriteValue (JNum.ofOption element.txMb)
      times := acc.times + 1 }

/-- The pure part of `getNetworkStats`. -/
def getNetworkStats (data : List NetworkStats) (startTime endTime : ℚ) : ProcessedNetworkStats :=
  let acc := data.foldl (netStep startTime endTime)
    { networkReadX := [], networkWriteX := [], maxReadValue := .num 0,
      maxWriteValue := .num 0, times := 0 }
  { networkReadX := acc.networkReadX
    networkWriteX := acc.networkWriteX
    networkTableContent :=
      [["Network I/O Read", acc.maxReadValue.toFixed2 ++ "M", "-"],
       ["Network I/O Write", acc.maxWriteValue.toFixed2 ++ "M", "-"]] }

/-! ### Disk aggregator (`getDiskStats`, statCollector.ts lines 356-397) -/

/-- Accumulator for the `forEach` loop of `getDiskStats`. -/
structure DiskAcc where
  diskReadX : List ProcessedStats
  diskWriteX : List ProcessedStats
  maxReadValue : JNum
  maxWriteValue : JNum
  times : ℕ
deriving Repr

/-- One iteration of the `getDiskStats` loop. -/
def diskStep (startTime endTime : ℚ) (acc : DiskAcc) (element : DiskStats) : DiskAcc :=
  if element.time < startTime ∨ element.time > endTime then acc
  else
    let rxMb := floorVal element.rxMb
    let wxMb := floorVal element.wxMb
    { diskReadX := acc.diskReadX ++ [⟨element.time, rxMb⟩]
      diskWriteX := acc.diskWriteX ++ [⟨element.time, wxMb⟩]
      maxReadValue := jsMax acc.maxReadValue (JNum.ofOption element.rxMb)
      maxWriteValue := jsMax acc.maxWriteValue (JNum.ofOption element.wxMb)
      times := acc.times + 1 }

/-- The pure part of `getDiskStats`. -/
def getDiskStats (data : List DiskStats) (startTime endTime : ℚ) : ProcessedDiskStats :=
  let acc := data.foldl (diskStep startTime endTime)
    { diskReadX := [], diskWriteX := [], maxReadValue := .num 0,
      maxWriteValue := .num 0, times := 0 }
  { diskReadX := acc.diskReadX
    diskWriteX := acc.diskWriteX
    diskTableContent :=
      [["Disk I/O Read", acc.maxReadValue.toFixed2 ++ "M", "-"],
       ["Disk I/O Write", acc.maxWriteValue.toFixed2 ++ "M", "-"]] }

/-! ### Derived descriptions of the loops, used to state properties -/

/-- The in-window filter shared by all four aggregator loops: each loop
skips a sample iff `time < startTime ∨ time > endTime`, so it retains
exactly the samples with `startTime ≤ time ≤ endTime`. -/
def inWindow {α : Type} (time : α → ℚ) (startTime endTime : ℚ) (data : List α) : List α :=
  data.filter fun e => decide (startTime ≤ time e) && decide (time e ≤ endTime)

/-- Joint evolution of the memory capacity running maximum and its running
sum: per retained sample the maximum is updated first and the updated value
is added to the sum. -/
def capStep : JNum × JNum → JNum → JNum × JNum :=
  fun p c => let m2 := jsMax p.1 c; (m2, jsAdd p.2 m2)

/-- The spec formula for the denominator of the memory average-usage
percentage: the sum, over the capacity readings in order, of the running
maximum of the capacities seen so far (starting from current maximum `m`). -/
def prefixMaxSum (m : ℚ) : List ℚ → ℚ
  | [] => 0
  | c :: rest => max m c + prefixMaxSum (max m c) rest

/-! ### Report composition (`reportWorkflowMetrics`, statCollector.ts lines 42-212) -/

/-- A successful chart-service response `{id, url}`. -/
structure GraphResponse where
  id : String
  url : String
deriving DecidableEq, Repr

/-- One step of the workflow job, as consumed by the step lookup
(`name`, `started_at`, `completed_at`; timestamps are already converted to
epoch milliseconds as `new Date(...).getTime()` would produce). -/
structure WorkflowStep where
  name : String
  started_at : Option ℚ
  completed_at : Option ℚ
deriving DecidableEq, Repr

/-- The workflow job: `job.steps` may be absent. -/
structure WorkflowJobType where
  steps : Option (List WorkflowStep)
deriving DecidableEq, Repr

/-- Outcomes of all external calls one report generation can make:
the four sample fetches (which can throw) and the six chart requests
(whose failures are caught and surface as `undefined`). -/
structure Env where
  theme : String
  cpuFetch : Except Unit (List CPUStats)
  memoryFetch : Except Unit (List MemoryStats)
  networkFetch : Except Unit (List NetworkStats)
  diskFetch : Except Unit (List DiskStats)
  cpuChart : Option GraphResponse
  memoryChart : Option GraphResponse
  networkReadChart : Option GraphResponse
  networkWriteChart : Option GraphResponse
  diskReadChart : Option GraphResponse
  diskWriteChart : Option GraphResponse

def BLACK : String := "#000000"
def WHITE : String := "#FFFFFF"
def VALID_JOB_NAME : String := "Run test"

/-- Axis color from the theme input: `light` → black, `dark` → white,
anything else warns and keeps the default black. -/
def axisColorOf (theme : String) : String :=
  if theme = "light" then BLACK else if theme = "dark" then WHITE else BLACK

/-- `job.steps?.find(step => step.name === VALID_JOB_NAME && step.started_at
&& step.completed_at)`. -/
def findValidJob (job : WorkflowJobType) : Option WorkflowStep :=
  match job.steps with
  | none => none
  | some steps =>
    steps.find? fun step =>
      decide (step.name = VALID_JOB_NAME) && step.started_at.isSome && step.completed_at.isSome

/-- The markdown image fragment `![id](url)`. -/
def imgRef (g : GraphResponse) : String := "![" ++ g.id ++ "](" ++ g.url ++ ")"

/-- The Network I/O table row (statCollector.ts line 180). -/
def networkRow (r w : GraphResponse) : String :=
  "| Network I/O   | " ++ imgRef r ++ "        | " ++ imgRef w ++ "        |"

/-- The Disk I/O table row (statCollector.ts line 185). -/
def diskRow (r w : GraphResponse) : String :=
  "| Disk I/O      | " ++ imgRef r ++ "              | " ++ imgRef w ++ "              |"

/-- `Array.prototype.join('\n')`. -/
def joinLines : List String → String
  | [] => ""
  | [a] => a
  | a :: rest => a ++ "\n" ++ joinLines rest

/-- One body row of a markdown table: cells separated by pipes. -/
def mdRow (r : List String) : String := "| " ++ String.intercalate " | " r ++ " |"

/-- The delimiter row under a markdown table header. -/
def mdDelim (r : List String) : String :=
  "| " ++ String.intercalate " | " (r.map fun _ => "---") ++ " |"

/-- Modelled from the external `markdown-table` npm package (a third-party
dependency, not part of this repository): rows rendered as pipe-delimited
lines with a delimiter row after the header; the package additionally pads
cells with spaces, which no claim here depends on. -/
def markdownTable : List (List String) → String
  | [] => ""
  | header :: body => joinLines (mdRow header :: mdDelim header :: body.map mdRow)

/-- The statistics table content: fixed header row, then each domain's
summary rows whenever they are non-empty (statCollector.ts lines 195-208). -/
def statsTableContent (cpuT memT netT diskT : List (List String)) : List (List String) :=
  [["Domain", "MaxValue", "AvgValue"]] ++
  (if cpuT ≠ [] then cpuT else []) ++
  (if memT ≠ [] then memT else []) ++
  (if netT ≠ [] then netT else []) ++
  (if diskT ≠ [] then diskT else [])

/-- One `if (chart) { push title, image, '' }` block of the composer
(statCollector.ts lines 157-170). -/
def chartSection (title : String) : Option GraphResponse → List String
  | some g => [title, imgRef g, ""]
  | none => []

/-- One `if (read && write) { push row }` block of the composer
(statCollector.ts lines 178-187). -/
def ioRowBlock (row : GraphResponse → GraphResponse → String) :
    Option GraphResponse → Option GraphResponse → List String
  | some r, some w => [row r w]
  | _, _ => []

/-- The duration-gated statistics section of the composer
(statCollector.ts lines 189-210). -/
def statsSection (cpuT memT netT diskT : List (List String)) :
    Option ℚ → Option ℚ → List String
  | some st, some en =>
    ["### Performance Statistics",
     "Executing duration: " ++ intToString (jsRound (qDiv (qAdd en (qNeg st)) 1000)) ++ "s",
     markdownTable (statsTableContent cpuT memT netT diskT)]
  | _, _ => []

/-- The `postContentItems` list built by `reportWorkflowMetrics`
(statCollector.ts lines 156-210): CPU section, memory section, combined IO
header, network row, disk row, then the duration-gated statistics section. -/
def postContentItems (cpuLoad memoryUsage networkIORead networkIOWrite diskIORead
    diskIOWrite : Option GraphResponse)
    (cpuTableContent memoryTableContent networkTableContent diskTableContent :
      List (List String))
    (validJob : WorkflowStep) : List String :=
  chartSection "### CPU Metrics" cpuLoad ++
  chartSection "### Memory Metrics" memoryUsage ++
  (if (networkIORead.isSome ∧ networkIOWrite.isSome) ∨
      (diskIORead.isSome ∧ diskIOWrite.isSome) then
    ["### IO Metrics",
     "|               | Read      | Write     |",
     "|---            |---        |---        |"]
   else []) ++
  ioRowBlock networkRow networkIORead networkIOWrite ++
  ioRowBlock diskRow diskIORead diskIOWrite ++
  statsSection cpuTableContent memoryTableContent networkTableContent diskTableContent
    validJob.started_at validJob.completed_at

/-- `reportWorkflowMetrics` up to the final `join('\n')`: resolve the valid
step (returning an empty item list when there is none), fetch and aggregate
the four domains in order (a fetch failure propagates as the exception),
request the charts for every non-empty series, and compose the items. -/
def reportItems (env : Env) (job : WorkflowJobType) : Except Unit (List String) :=
  match findValidJob job with
  | none => .ok []
  | some validJob =>
    let _axisColor := axisColorOf env.theme
    let startTime := validJob.started_at.getD 0
    let endTime := validJob.completed_at.getD 0
    do
      let cpuData ← env.cpuFetch
      let cpu := getCPUStats cpuData startTime endTime
      let memData ← env.memoryFetch
      let mem := getMemoryStats memData startTime endTime
      let netData ← env.networkFetch
      let net := getNetworkStats netData startTime endTime
      let diskData ← env.diskFetch
      let dsk := getDiskStats diskData startTime endTime
      let cpuLoad := if cpu.userLoadX ≠ [] ∧ cpu.systemLoadX ≠ [] then env.cpuChart else none
      let memoryUsage := if mem.activeMemoryX ≠ [] then env.memoryChart else none
      let networkIORead := if net.networkReadX ≠ [] then env.networkReadChart else none
      let networkIOWrite := if net.networkWriteX ≠ [] then env.networkWriteChart else none
      let diskIORead := if dsk.diskReadX ≠ [] then env.diskReadChart else none
      let diskIOWrite := if dsk.diskWriteX ≠ [] then env.diskWriteChart else none
      .ok (postContentItems cpuLoad memoryUsage networkIORead networkIOWrite diskIORead
        diskIOWrite cpu.cpuTableContent mem.memoryTableContent net.networkTableContent
        dsk.diskTableContent validJob)

/-- `reportWorkflowMetrics`: the composed items joined with newlines. -/
def reportWorkflowMetrics (env : Env) (job : WorkflowJobType) : Except Unit String :=
  (reportItems env job).map joinLines

/-- The exported `report` entry point: `null` when no job is given, and any
exception from the pipeline is caught and turned into `null`. -/
def report (env : Env) (job : Option WorkflowJobType) : Option String :=
  match job with
  | none => none
  | some j =>
    match reportWorkflowMetrics env j with
    | .ok s => some s
    | .error _ => none



/-! ### Substring test and concrete scenario inputs -/

/-- Boolean prefix test on character lists (kernel-reducible). -/
def prefixChars : List Char → List Char → Bool
  | [], _ => true
  | _ :: _, [] => false
  | a :: as, b :: bs => a == b && prefixChars as bs

/-- Does `pat` occur as a contiguous substring of `cs`? -/
def containsSubGo : List Char → List Char → Bool
  | [], pat => pat.isEmpty
  | c :: rest, pat => prefixChars pat (c :: rest) || containsSubGo rest pat

/-- Does `pat` occur as a substring of `s`? -/
def containsStr (s pat : String) : Bool := containsSubGo s.data pat.data

/-- A job whose only step is the valid step with window `[0ms, 2000ms]`. -/
def jobRun : WorkflowJobType := ⟨some [⟨"Run test", some 0, some 2000⟩]⟩

/-- An environment where every fetch succeeds with an empty sample array
and every chart call fails. -/
def envEmpty : Env :=
  { theme := "light", cpuFetch := .ok [], memoryFetch := .ok [], networkFetch := .ok [],
    diskFetch := .ok [], cpuChart := none, memoryChart := none, networkReadChart := none,
    networkWriteChart := none, diskReadChart := none, diskWriteChart := none }

/-- An environment where the CPU fetch throws while the other three domains
have non-empty in-window data and successful charts. -/
def envCpuFail : Env :=
  { envEmpty with
    cpuFetch := .error (),
    memoryFetch := .ok [⟨0, some 1000, some 100, none⟩],
    networkFetch := .ok [⟨0, some 1, some 2⟩],
    diskFetch := .ok [⟨0, some 3, some 4⟩],
    memoryChart := some ⟨"m", "mu"⟩, networkReadChart := some ⟨"nr", "nru"⟩,
    networkWriteChart := some ⟨"nw", "nwu"⟩, diskReadChart := some ⟨"dr", "dru"⟩,
    diskWriteChart := some ⟨"dw", "dwu"⟩ }

/-- The spec's concrete memory scenario: constant capacity 1000, active
usage 100, 200, 300 at times 0, 1000, 2000. -/
def memScenario : List MemoryStats :=
  [⟨0, some 1000, some 100, none⟩, ⟨1000, some 1000, some 200, none⟩,
   ⟨2000, some 1000, some 300, none⟩]

/-- An environment with non-empty network and disk data where both disk
chart calls succeed and both network chart calls fail. -/
def envDiskOnly : Env :=
  { envEmpty with
    networkFetch := .ok [⟨0, some 1, some 2⟩],
    diskFetch := .ok [⟨0, some 3, some 4⟩],
    diskReadChart := some ⟨"d1", "du1"⟩,
    diskWriteChart := some ⟨"d2", "du2"⟩ }

/-! ## Theorems -/

/-! ### The arithmetic wrappers agree with the field operations on ℚ -/

theorem num_eq_mul_den (a : ℚ) : (a.num : ℚ) = a * a.den := by
  have had : ((a.den : ℚ)) ≠ 0 := by exact_mod_cast a.den_nz
  have h := Rat.num_div_den a
  rw [div_eq_iff had] at h
  exact h

theorem qAdd_eq (a b : ℚ) : qAdd a b = a + b := by
  have had : ((a.den : ℚ)) ≠ 0 := by exact_mod_cast a.den_nz
  have hbd : ((b.den : ℚ)) ≠ 0 := by exact_mod_cast b.den_nz
  rw [qAdd, Rat.mkRat_eq_div]
  push_cast
  rw [div_eq_iff (mul_ne_zero had hbd), num_eq_mul_den a, num_eq_mul_den b]
  ring

theorem qMul_eq (a b : ℚ) : qMul a b = a * b := by
  have had : ((a.den : ℚ)) ≠ 0 := by exact_mod_cast a.den_nz
  have hbd : ((b.den : ℚ)) ≠ 0 := by exact_mod_cast b.den_nz
  rw [qMul, Rat.mkRat_eq_div]
  push_cast
  rw [div_eq_iff (mul_ne_zero had hbd), num_eq_mul_den a, num_eq_mul_den b]
  ring

theorem qNeg_eq (a : ℚ) : qNeg a = -a := by
  rw [qNeg, Rat.mkRat_eq_div]
  push_cast
  rw [neg_div, Rat.num_div_den]

theorem qDiv_eq (a b : ℚ) (hb : b ≠ 0) : qDiv a b = a / b := by
  have had : ((a.den : ℚ)) ≠ 0 := by exact_mod_cast a.den_nz
  have hbn : b.num ≠ 0 := Rat.num_ne_zero.mpr hb
  rcases le_or_lt 0 b.num with h | h
  · rw [qDiv, if_pos h, Rat.mkRat_eq_div]
    push_cast [Int.cast_natAbs]
    rw [abs_of_nonneg (show (0:ℚ) ≤ (b.num : ℚ) by exact_mod_cast h)]
    rw [div_eq_div_iff (mul_ne_zero had (by exact_mod_cast hbn)) hb]
    rw [num_eq_mul_den a, num_eq_mul_den b]
    ring
  · rw [qDiv, if_neg (not_le.mpr h), Rat.mkRat_eq_div]
    push_cast [Int.cast_natAbs]
    rw [abs_of_neg (show (b.num : ℚ) < 0 by exact_mod_cast h)]
    rw [div_eq_div_iff (by
        apply mul_ne_zero had
        simp only [ne_eq, neg_eq_zero]
        exact_mod_cast hbn) hb]
    rw [num_eq_mul_den a, num_eq_mul_den b]
    ring

theorem ratMax_eq (a b : ℚ) : ratMax a b = max a b := by
  rw [ratMax, max_def]
  rcases lt_trichotomy a b with h | h | h
  · rw [if_pos h, if_pos h.le]
  · subst h; simp
  · rw [if_neg (not_lt.mpr h.le), if_neg (not_le.mpr h)]

theorem ratFloorNat_eq (q : ℚ) (hq : 0 ≤ q) : (ratFloorNat q : ℤ) = Int.floor q := by
  have h0 : 0 ≤ q.num := Rat.num_nonneg.mpr hq
  rw [Rat.floor_def, ratFloorNat, Int.ofNat_tdiv, Int.toNat_of_nonneg h0,
    Int.tdiv_eq_ediv h0 (by positivity)]

/-! ### Loop characterizations: each aggregator fold as filter, map and fold -/

theorem cpu_foldl_char (s t : ℚ) :
    ∀ (data : List CPUStats) (acc : CPUAcc),
      data.foldl (cpuStep s t) acc =
        { userLoadX := acc.userLoadX ++ (inWindow CPUStats.time s t data).map
            (fun e => ⟨e.time, floorVal e.userLoad⟩)
          systemLoadX := acc.systemLoadX ++ (inWindow CPUStats.time s t data).map
            (fun e => ⟨e.time, floorVal e.systemLoad⟩)
          maxUserValue := ((inWindow CPUStats.time s t data).map
            (fun e => JNum.ofOption e.userLoad)).foldl jsMax acc.maxUserValue
          sumUserValue := ((inWindow CPUStats.time s t data).map
            (fun e => floorVal e.userLoad)).foldl qAdd acc.sumUserValue
          maxSystemValue := ((inWindow CPUStats.time s t data).map
            (fun e => JNum.ofOption e.systemLoad)).foldl jsMax acc.maxSystemValue
          sumSystemValue := ((inWindow CPUStats.time s t data).map
            (fun e => floorVal e.systemLoad)).foldl qAdd acc.sumSystemValue
          times := acc.times + (inWindow CPUStats.time s t data).length }
  | [], acc => by simp [inWindow]
  | e :: rest, acc => by
    rw [List.foldl_cons]
    by_cases h : e.time < s ∨ e.time > t
    · have hp : (decide (s ≤ e.time) && decide (e.time ≤ t)) = false := by
        rcases h with h | h
        · simp [not_le.mpr h]
        · simp [not_le.mpr h]
      have hskip : cpuStep s t acc e = acc := by rw [cpuStep, if_pos h]
      rw [hskip, cpu_foldl_char s t rest acc]
      simp [inWindow, List.filter_cons, hp]
    · push_neg at h
      have hp : (decide (s ≤ e.time) && decide (e.time ≤ t)) = true := by
        simp [h.1, h.2]
      have hkeep : cpuStep s t acc e =
        { userLoadX := acc.userLoadX ++ [⟨e.time, floorVal e.userLoad⟩]
          systemLoadX := acc.systemLoadX ++ [⟨e.time, floorVal e.systemLoad⟩]
          maxUserValue := jsMax acc.maxUserValue (JNum.ofOption e.userLoad)
          sumUserValue := qAdd acc.sumUserValue (floorVal e.userLoad)
          maxSystemValue := jsMax acc.maxSystemValue (JNum.ofOption e.systemLoad)
          sumSystemValue := qAdd acc.sumSystemValue (floorVal e.systemLoad)
          times := acc.times + 1 } := by
        rw [cpuStep, if_neg (by push_neg; exact h)]
      rw [hkeep, cpu_foldl_char s t rest _]
      simp only [inWindow, List.filter_cons, hp, if_true, List.map_cons, List.foldl_cons,
        List.length_cons]
      refine CPUAcc.mk.injEq .. ▸ ?_
      simp [List.append_assoc]
      omega


theorem mem_foldl_char (s t : ℚ) :
    ∀ (data : List MemoryStats) (acc : MemAcc),
      data.foldl (memStep s t) acc =
        { activeMemoryX := acc.activeMemoryX ++ (inWindow MemoryStats.time s t data).map
            (fun e => ⟨e.time, floorVal e.activeMemoryMb⟩)
          maxUsedValue := ((inWindow MemoryStats.time s t data).map
            (fun e => floorVal e.activeMemoryMb)).foldl ratMax acc.maxUsedValue
          sumUsedValue := ((inWindow MemoryStats.time s t data).map
            (fun e => floorVal e.activeMemoryMb)).foldl qAdd acc.sumUsedValue
          totalMemoryMb := (((inWindow MemoryStats.time s t data).map
            (fun e => JNum.ofOption e.totalMemoryMb)).foldl capStep
              (acc.totalMemoryMb, acc.sumTotalMemoryMb)).1
          sumTotalMemoryMb := (((inWindow MemoryStats.time s t data).map
            (fun e => JNum.ofOption e.totalMemoryMb)).foldl capStep
              (acc.totalMemoryMb, acc.sumTotalMemoryMb)).2
          times := acc.times + (inWindow MemoryStats.time s t data).length }
  | [], acc => by simp [inWindow]
  | e :: rest, acc => by
    rw [List.foldl_cons]
    by_cases h : e.time < s ∨ e.time > t
    · have hp : (decide (s ≤ e.time) && decide (e.time ≤ t)) = false := by
        rcases h with h | h
        · simp [not_le.mpr h]
        · simp [not_le.mpr h]
      have hskip : memStep s t acc e = acc := by rw [memStep, if_pos h]
      rw [hskip, mem_foldl_char s t rest acc]
      simp [inWindow, List.filter_cons, hp]
    · push_neg at h
      have hp : (decide (s ≤ e.time) && decide (e.time ≤ t)) = true := by
        simp [h.1, h.2]
      have hkeep : memStep s t acc e =
        { activeMemoryX := acc.activeMemoryX ++ [⟨e.time, floorVal e.activeMemoryMb⟩]
          maxUsedValue := ratMax acc.maxUsedValue (floorVal e.activeMemoryMb)
          sumUsedValue := qAdd acc.sumUsedValue (floorVal e.activeMemoryMb)
          totalMemoryMb := jsMax acc.totalMemoryMb (JNum.ofOption e.totalMemoryMb)
          sumTotalMemoryMb := jsAdd acc.sumTotalMemoryMb
            (jsMax acc.totalMemoryMb (JNum.ofOption e.totalMemoryMb))
          times := acc.times + 1 } := by
        rw [memStep, if_neg (by push_neg; exact h)]
      rw [hkeep, mem_foldl_char s t rest _]
      simp only [inWindow, List.filter_cons, hp, if_true, List.map_cons, List.foldl_cons,
        List.length_cons]
      refine MemAcc.mk.injEq .. ▸ ?_
      simp [List.append_assoc, capStep]
      omega

theorem net_foldl_char (s t : ℚ) :
    ∀ (data : List NetworkStats) (acc : NetAcc),
      data.foldl (netStep s t) acc =
        { networkReadX := acc.networkReadX ++ (inWindow NetworkStats.time s t data).map
            (fun e => ⟨e.time, floorVal e.rxMb⟩)
          networkWriteX := acc.networkWriteX ++ (inWindow NetworkStats.time s t data).map
            (fun e => ⟨e.time, floorVal e.txMb⟩)
          maxReadValue := ((inWindow NetworkStats.time s t data).map
            (fun e => JNum.ofOption e.rxMb)).foldl jsMax acc.maxReadValue
          maxWriteValue := ((inWindow NetworkStats.time s t data).map
            (fun e => JNum.ofOption e.txMb)).foldl jsMax acc.maxWriteValue
          times := acc.times + (inWindow NetworkStats.time s t data).length }
  | [], acc => by simp [inWindow]
  | e :: rest, acc => by
    rw [List.foldl_cons]
    by_cases h : e.time < s ∨ e.time > t
    · have hp : (decide (s ≤ e.time) && decide (e.time ≤ t)) = false := by
        rcases h with h | h
        · simp [not_le.mpr h]
        · simp [not_le.mpr h]
      have hskip : netStep s t acc e = acc := by rw [netStep, if_pos h]
      rw [hskip, net_foldl_char s t rest acc]
      simp [inWindow, List.filter_cons, hp]
    · push_neg at h
      have hp : (decide (s ≤ e.time) && decide (e.time ≤ t)) = true := by
        simp [h.1, h.2]
      have hkeep : netStep s t acc e =
        { networkReadX := acc.networkReadX ++ [⟨e.time, floorVal e.rxMb⟩]
          networkWriteX := acc.networkWriteX ++ [⟨e.time, floorVal e.txMb⟩]
          maxReadValue := jsMax acc.maxReadValue (JNum.ofOption e.rxMb)
          maxWriteValue := jsMax acc.maxWriteValue (JNum.ofOption e.txMb)
          times := acc.times + 1 } := by
        rw [netStep, if_neg (by push_neg; exact h)]
      rw [hkeep, net_foldl_char s t rest _]
      simp only [inWindow, List.filter_cons, hp, if_true, List.map_cons, List.foldl_cons,
        List.length_cons]
      refine NetAcc.mk.injEq .. ▸ ?_
      simp [List.append_assoc]
      omega

theorem disk_foldl_char (s t : ℚ) :
    ∀ (data : List DiskStats) (acc : DiskAcc),
      data.foldl (diskStep s t) acc =
        { diskReadX := acc.diskReadX ++ (inWindow DiskStats.time s t data).map
            (fun e => ⟨e.time, floorVal e.rxMb⟩)
          diskWriteX := acc.diskWriteX ++ (inWindow DiskStats.time s t data).map
            (fun e => ⟨e.time, floorVal e.wxMb⟩)
          maxReadValue := ((inWindow DiskStats.time s t data).map
            (fun e => JNum.ofOption e.rxMb)).foldl jsMax acc.maxReadValue
          maxWriteValue := ((inWindow DiskStats.time s t data).map
            (fun e => JNum.ofOption e.wxMb)).foldl jsMax acc.maxWriteValue
          times := acc.times + (inWindow DiskStats.time s t data).length }
  | [], acc => by simp [inWindow]
  | e :: rest, acc => by
    rw [List.foldl_cons]
    by_cases h : e.time < s ∨ e.time > t
    · have hp : (decide (s ≤ e.time) && decide (e.time ≤ t)) = false := by
        rcases h with h | h
        · simp [not_le.mpr h]
        · simp [not_le.mpr h]
      have hskip : diskStep s t acc e = acc := by rw [diskStep, if_pos h]
      rw [hskip, disk_foldl_char s t rest acc]
      simp [inWindow, List.filter_cons, hp]
    · push_neg at h
      have hp : (decide (s ≤ e.time) && decide (e.time ≤ t)) = true := by
        simp [h.1, h.2]
      have hkeep : diskStep s t acc e =
        { diskReadX := acc.diskReadX ++ [⟨e.time, floorVal e.rxMb⟩]
          diskWriteX := acc.diskWriteX ++ [⟨e.time, floorVal e.wxMb⟩]
          maxReadValue := jsMax acc.maxReadValue (JNum.ofOption e.rxMb)
          maxWriteValue := jsMax acc.maxWriteValue (JNum.ofOption e.wxMb)
          times := acc.times + 1 } := by
        rw [diskStep, if_neg (by push_neg; exact h)]
      rw [hkeep, disk_foldl_char s t rest _]
      simp only [inWindow, List.filter_cons, hp, if_true, List.map_cons, List.foldl_cons,
        List.length_cons]
      refine DiskAcc.mk.injEq .. ▸ ?_
      simp [List.append_assoc]
      omega

/-! ### Series characterizations of the four aggregators -/

theorem getCPUStats_userLoadX (data : List CPUStats) (s t : ℚ) :
    (getCPUStats data s t).userLoadX
      = (inWindow CPUStats.time s t data).map
          (fun e => { x := e.time, y := floorVal e.userLoad : ProcessedStats }) := by
  rw [getCPUStats, cpu_foldl_char]
  simp

theorem getCPUStats_systemLoadX (data : List CPUStats) (s t : ℚ) :
    (getCPUStats data s t).systemLoadX
      = (inWindow CPUStats.time s t data).map
          (fun e => { x := e.time, y := floorVal e.systemLoad : ProcessedStats }) := by
  rw [getCPUStats, cpu_foldl_char]
  simp

theorem getMemoryStats_activeMemoryX (data : List MemoryStats) (s t : ℚ) :
    (getMemoryStats data s t).activeMemoryX
      = (inWindow MemoryStats.time s t data).map
          (fun e => { x := e.time, y := floorVal e.activeMemoryMb : ProcessedStats }) := by
  rw [getMemoryStats, mem_foldl_char]
  simp

theorem getNetworkStats_networkReadX (data : List NetworkStats) (s t : ℚ) :
    (getNetworkStats data s t).networkReadX
      = (inWindow NetworkStats.time s t data).map
          (fun e => { x := e.time, y := floorVal e.rxMb : ProcessedStats }) := by
  rw [getNetworkStats, net_foldl_char]
  simp

theorem getNetworkStats_networkWriteX (data : List NetworkStats) (s t : ℚ) :
    (getNetworkStats data s t).networkWriteX
      = (inWindow NetworkStats.time s t data).map
          (fun e => { x := e.time, y := floorVal e.txMb : ProcessedStats }) := by
  rw [getNetworkStats, net_foldl_char]
  simp

theorem getDiskStats_diskReadX (data : List DiskStats) (s t : ℚ) :
    (getDiskStats data s t).diskReadX
      = (inWindow DiskStats.time s t data).map
          (fun e => { x := e.time, y := floorVal e.rxMb : ProcessedStats }) := by
  rw [getDiskStats, disk_foldl_char]
  simp

theorem getDiskStats_diskWriteX (data : List DiskStats) (s t : ℚ) :
    (getDiskStats data s t).diskWriteX
      = (inWindow DiskStats.time s t data).map
          (fun e => { x := e.time, y := floorVal e.wxMb : ProcessedStats }) := by
  rw [getDiskStats, disk_foldl_char]
  simp

theorem floorVal_nonneg (o : Option ℚ) : 0 ≤ floorVal o := by
  match o with
  | none => exact le_refl 0
  | some v =>
    rw [floorVal]
    by_cases h : 0 < v
    · rw [if_pos h]; exact h.le
    · rw [if_neg h]

theorem floorVal_eq_zero_of_nonpos (o : Option ℚ) (h : o.getD 0 ≤ 0) : floorVal o = 0 := by
  match o with
  | none => rfl
  | some v =>
    rw [Option.getD_some] at h
    rw [floorVal, if_neg (not_lt.mpr h)]

theorem y_nonneg_of_mem_floored {α : Type} (l : List α) (time : α → ℚ) (f : α → Option ℚ)
    (p : ProcessedStats)
    (hp : p ∈ l.map fun e => { x := time e, y := floorVal (f e) : ProcessedStats }) :
    0 ≤ p.y := by
  rcases List.mem_map.mp hp with ⟨e, _, rfl⟩
  exact floorVal_nonneg (f e)

/-! ### C6 -/

/-- C6: for every raw sample array and window, the aggregation retains
exactly the samples with `start ≤ time ≤ end` (both endpoints inclusive):
the CPU series are precisely the floored points of the `inWindow` filter,
and — provided the window is non-degenerate (`start ≤ end`) — a sample
whose time equals either endpoint yields a retained point. -/
theorem c6_filter_inclusive (data : List CPUStats) (s t : ℚ) :
    ((getCPUStats data s t).userLoadX
        = (inWindow CPUStats.time s t data).map
            (fun e => { x := e.time, y := floorVal e.userLoad : ProcessedStats }) ∧
     (getCPUStats data s t).systemLoadX
        = (inWindow CPUStats.time s t data).map
            (fun e => { x := e.time, y := floorVal e.systemLoad : ProcessedStats })) ∧
    (s ≤ t → ∀ e ∈ data, e.time = s ∨ e.time = t →
      { x := e.time, y := floorVal e.userLoad : ProcessedStats }
        ∈ (getCPUStats data s t).userLoadX) := by
  refine ⟨⟨getCPUStats_userLoadX data s t, getCPUStats_systemLoadX data s t⟩, ?_⟩
  intro hst e he hbound
  rw [getCPUStats_userLoadX]
  apply List.mem_map_of_mem
  rw [inWindow, List.mem_filter]
  refine ⟨he, ?_⟩
  rcases hbound with h | h
  · simp [h, hst]
  · simp [h, hst]

/-- Witness for C6 at a concrete input: a window `[0, 10]` with samples on
both endpoints and one outside; both endpoint samples are retained. -/
theorem c6_filter_inclusive_witness :
    ({ x := 0, y := 1 : ProcessedStats }
        ∈ (getCPUStats [⟨0, none, some 1, some 1⟩, ⟨10, none, some 2, some 2⟩,
            ⟨11, none, some 3, some 3⟩] 0 10).userLoadX) ∧
    ({ x := 10, y := 2 : ProcessedStats }
        ∈ (getCPUStats [⟨0, none, some 1, some 1⟩, ⟨10, none, some 2, some 2⟩,
            ⟨11, none, some 3, some 3⟩] 0 10).userLoadX) := by
  have h := c6_filter_inclusive [⟨0, none, some 1, some 1⟩, ⟨10, none, some 2, some 2⟩,
      ⟨11, none, some 3, some 3⟩] 0 10
  constructor
  · have := h.2 (by decide) ⟨0, none, some 1, some 1⟩ (by simp) (Or.inl rfl)
    simpa [floorVal] using this
  · have := h.2 (by decide) ⟨10, none, some 2, some 2⟩ (by simp) (Or.inr rfl)
    simpa [floorVal] using this

/-! ### C7 -/

/-- C7: no emitted series point of any domain has a negative y-value, and
none can be `NaN` (the emitted y is `floorVal` of the raw field, whose
codomain is `ℚ`); a raw in-window sample whose plotted field is negative,
zero or absent contributes a point with y exactly `0`. -/
theorem c7_points_never_negative (cpuData : List CPUStats) (memData : List MemoryStats)
    (netData : List NetworkStats) (diskData : List DiskStats) (s t : ℚ) :
    (∀ p ∈ (getCPUStats cpuData s t).userLoadX, 0 ≤ p.y) ∧
    (∀ p ∈ (getCPUStats cpuData s t).systemLoadX, 0 ≤ p.y) ∧
    (∀ p ∈ (getMemoryStats memData s t).activeMemoryX, 0 ≤ p.y) ∧
    (∀ p ∈ (getNetworkStats netData s t).networkReadX, 0 ≤ p.y) ∧
    (∀ p ∈ (getNetworkStats netData s t).networkWriteX, 0 ≤ p.y) ∧
    (∀ p ∈ (getDiskStats diskData s t).diskReadX, 0 ≤ p.y) ∧
    (∀ p ∈ (getDiskStats diskData s t).diskWriteX, 0 ≤ p.y) ∧
    (∀ e ∈ cpuData, s ≤ e.time → e.time ≤ t → e.userLoad.getD 0 ≤ 0 →
      { x := e.time, y := 0 : ProcessedStats } ∈ (getCPUStats cpuData s t).userLoadX) := by
  refine ⟨?_, ?_, ?_, ?_, ?_, ?_, ?_, ?_⟩
  · rw [getCPUStats_userLoadX]
    exact fun p hp => y_nonneg_of_mem_floored _ _ _ p hp
  · rw [getCPUStats_systemLoadX]
    exact fun p hp => y_nonneg_of_mem_floored _ _ _ p hp
  · rw [getMemoryStats_activeMemoryX]
    exact fun p hp => y_nonneg_of_mem_floored _ _ _ p hp
  · rw [getNetworkStats_networkReadX]
    exact fun p hp => y_nonneg_of_mem_floored _ _ _ p hp
  · rw [getNetworkStats_networkWriteX]
    exact fun p hp => y_nonneg_of_mem_floored _ _ _ p hp
  · rw [getDiskStats_diskReadX]
    exact fun p hp => y_nonneg_of_mem_floored _ _ _ p hp
  · rw [getDiskStats_diskWriteX]
    exact fun p hp => y_nonneg_of_mem_floored _ _ _ p hp
  · intro e he h1 h2 h3
    rw [getCPUStats_userLoadX]
    have : { x := e.time, y := 0 : ProcessedStats }
        = { x := e.time, y := floorVal e.userLoad : ProcessedStats } := by
      rw [floorVal_eq_zero_of_nonpos e.userLoad h3]
    rw [this]
    apply List.mem_map_of_mem
    rw [inWindow, List.mem_filter]
    exact ⟨he, by simp [h1, h2]⟩

/-- Witness for C7 at a concrete input: a sample with a negative user load
and an absent system load both plot as `0`. -/
theorem c7_points_never_negative_witness :
    ({ x := 0, y := 0 : ProcessedStats }
        ∈ (getCPUStats [⟨0, none, some (-5), none⟩] 0 10).userLoadX) ∧
    (∀ p ∈ (getCPUStats [⟨0, none, some (-5), none⟩] 0 10).systemLoadX, 0 ≤ p.y) := by
  have h := c7_points_never_negative [⟨0, none, some (-5), none⟩] [] [] [] 0 10
  constructor
  · exact h.2.2.2.2.2.2.2 ⟨0, none, some (-5), none⟩ (by simp) (by decide) (by decide)
      (by decide)
  · exact h.2.1

theorem sorted_times_inWindow {α : Type} (time : α → ℚ) (s t : ℚ) (l : List α)
    (hs : l.Pairwise fun a b => time a ≤ time b) :
    ((inWindow time s t l).map time).Pairwise (· ≤ ·) := by
  rw [inWindow]
  exact List.pairwise_map.mpr (hs.filter _)

theorem series_map_x {α : Type} (l : List α) (time : α → ℚ) (f : α → Option ℚ) :
    ((l.map fun e => { x := time e, y := floorVal (f e) : ProcessedStats }).map
        ProcessedStats.x) = l.map time := by
  rw [List.map_map]
  rfl

/-! ### C9 -/

/-- C9: co-plotted series always have equal length and identical x-value
sequences (CPU user/system, network read/write, disk read/write), and for
an input array ordered by timestamp every emitted series is monotonic in
time. -/
theorem c9_series_aligned (cpuData : List CPUStats) (memData : List MemoryStats)
    (netData : List NetworkStats) (diskData : List DiskStats) (s t : ℚ) :
    ((getCPUStats cpuData s t).userLoadX.length
        = (getCPUStats cpuData s t).systemLoadX.length ∧
     (getCPUStats cpuData s t).userLoadX.map ProcessedStats.x
        = (getCPUStats cpuData s t).systemLoadX.map ProcessedStats.x) ∧
    ((getNetworkStats netData s t).networkReadX.length
        = (getNetworkStats netData s t).networkWriteX.length ∧
     (getNetworkStats netData s t).networkReadX.map ProcessedStats.x
        = (getNetworkStats netData s t).networkWriteX.map ProcessedStats.x) ∧
    ((getDiskStats diskData s t).diskReadX.length
        = (getDiskStats diskData s t).diskWriteX.length ∧
     (getDiskStats diskData s t).diskReadX.map ProcessedStats.x
        = (getDiskStats diskData s t).diskWriteX.map ProcessedStats.x) ∧
    (cpuData.Pairwise (fun a b => a.time ≤ b.time) →
      ((getCPUStats cpuData s t).userLoadX.map ProcessedStats.x).Pairwise (· ≤ ·) ∧
      ((getCPUStats cpuData s t).systemLoadX.map ProcessedStats.x).Pairwise (· ≤ ·)) ∧
    (memData.Pairwise (fun a b => a.time ≤ b.time) →
      ((getMemoryStats memData s t).activeMemoryX.map ProcessedStats.x).Pairwise (· ≤ ·)) ∧
    (netData.Pairwise (fun a b => a.time ≤ b.time) →
      ((getNetworkStats netData s t).networkReadX.map ProcessedStats.x).Pairwise (· ≤ ·) ∧
      ((getNetworkStats netData s t).networkWriteX.map ProcessedStats.x).Pairwise (· ≤ ·)) ∧
    (diskData.Pairwise (fun a b => a.time ≤ b.time) →
      ((getDiskStats diskData s t).diskReadX.map ProcessedStats.x).Pairwise (· ≤ ·) ∧
      ((getDiskStats diskData s t).diskWriteX.map ProcessedStats.x).Pairwise (· ≤ ·)) := by
  refine ⟨⟨?_, ?_⟩, ⟨?_, ?_⟩, ⟨?_, ?_⟩, ?_, ?_, ?_, ?_⟩
  · rw [getCPUStats_userLoadX, getCPUStats_systemLoadX, List.length_map, List.length_map]
  · rw [getCPUStats_userLoadX, getCPUStats_systemLoadX, series_map_x, series_map_x]
  · rw [getNetworkStats_networkReadX, getNetworkStats_networkWriteX,
      List.length_map, List.length_map]
  · rw [getNetworkStats_networkReadX, getNetworkStats_networkWriteX,
      series_map_x, series_map_x]
  · rw [getDiskStats_diskReadX, getDiskStats_diskWriteX, List.length_map, List.length_map]
  · rw [getDiskStats_diskReadX, getDiskStats_diskWriteX, series_map_x, series_map_x]
  · intro hs
    rw [getCPUStats_userLoadX, getCPUStats_systemLoadX, series_map_x, series_map_x]
    exact ⟨sorted_times_inWindow _ _ _ _ hs, sorted_times_inWindow _ _ _ _ hs⟩
  · intro hs
    rw [getMemoryStats_activeMemoryX, series_map_x]
    exact sorted_times_inWindow _ _ _ _ hs
  · intro hs
    rw [getNetworkStats_networkReadX, getNetworkStats_networkWriteX, series_map_x,
      series_map_x]
    exact ⟨sorted_times_inWindow _ _ _ _ hs, sorted_times_inWindow _ _ _ _ hs⟩
  · intro hs
    rw [getDiskStats_diskReadX, getDiskStats_diskWriteX, series_map_x, series_map_x]
    exact ⟨sorted_times_inWindow _ _ _ _ hs, sorted_times_inWindow _ _ _ _ hs⟩

/-- Witness for C9 at a concrete sorted input. -/
theorem c9_series_aligned_witness :
    ((getCPUStats [⟨0, none, some 1, some 2⟩, ⟨5, none, some 3, some 4⟩] 0 10).userLoadX.map
        ProcessedStats.x).Pairwise (· ≤ ·) := by
  have h := c9_series_aligned [⟨0, none, some 1, some 2⟩, ⟨5, none, some 3, some 4⟩]
    [] [] [] 0 10
  exact (h.2.2.2.1 (by decide)).1

/-! ### String disequalities for the composer -/

theorem append_ne_left (a x c : String) (h : (a.data.isPrefixOf c.data) = false) :
    a ++ x ≠ c := by
  intro he
  have hd : a.data ++ x.data = c.data := by rw [← String.data_append, he]
  have h2 : a.data.isPrefixOf c.data = true := by
    rw [← hd, List.isPrefixOf_iff_prefix]
    exact List.prefix_append _ _
  rw [h] at h2
  exact Bool.false_ne_true h2

theorem append_ne_append (a x b y : String) (h1 : a.data.isPrefixOf b.data = false)
    (h2 : b.data.isPrefixOf a.data = false) : a ++ x ≠ b ++ y := by
  intro he
  have hd : a.data ++ x.data = b.data ++ y.data := by
    rw [← String.data_append, ← String.data_append, he]
  rcases List.append_eq_append_iff.mp hd with ⟨a2, ha, _⟩ | ⟨c2, hb, _⟩
  · have : a.data.isPrefixOf b.data = true := by
      rw [ List.isPrefixOf_iff_prefix, ha]
      exact List.prefix_append _ _
    rw [h1] at this
    exact Bool.false_ne_true this
  · have : b.data.isPrefixOf a.data = true := by
      rw [ List.isPrefixOf_iff_prefix, hb]
      exact List.prefix_append _ _
    rw [h2] at this
    exact Bool.false_ne_true this

theorem imgRef_shape (g : GraphResponse) : ∃ x, imgRef g = "![" ++ x :=
  ⟨g.id ++ "](" ++ g.url ++ ")", by simp [imgRef, String.append_assoc]⟩

theorem networkRow_shape (r w : GraphResponse) :
    ∃ x, networkRow r w = "| Network I/O   | " ++ x :=
  ⟨imgRef r ++ "        | " ++ imgRef w ++ "        |", by
    simp [networkRow, String.append_assoc]⟩

theorem diskRow_shape (r w : GraphResponse) :
    ∃ x, diskRow r w = "| Disk I/O      | " ++ x :=
  ⟨imgRef r ++ "              | " ++ imgRef w ++ "              |", by
    simp [diskRow, String.append_assoc]⟩

theorem durationLine_shape (i : ℤ) :
    ∃ x, "Executing duration: " ++ intToString i ++ "s" = "Executing duration: " ++ x :=
  ⟨intToString i ++ "s", by rw [String.append_assoc]⟩

theorem statsTable_shape (cT mT nT dT : List (List String)) :
    ∃ x, markdownTable (statsTableContent cT mT nT dT)
      = "| Domain | MaxValue | AvgValue |" ++ ("\n" ++ x) := by
  refine ⟨joinLines (mdDelim ["Domain", "MaxValue", "AvgValue"] ::
    ((if cT ≠ [] then cT else []) ++ (if mT ≠ [] then mT else []) ++
     (if nT ≠ [] then nT else []) ++ (if dT ≠ [] then dT else [])).map mdRow), ?_⟩
  have hrow : mdRow ["Domain", "MaxValue", "AvgValue"]
      = "| Domain | MaxValue | AvgValue |" := by decide
  have hcons : statsTableContent cT mT nT dT
      = ["Domain", "MaxValue", "AvgValue"] ::
        ((if cT ≠ [] then cT else []) ++ (if mT ≠ [] then mT else []) ++
         (if nT ≠ [] then nT else []) ++ (if dT ≠ [] then dT else [])) := by
    rw [statsTableContent]
    rfl
  rw [hcons, markdownTable, joinLines, hrow, String.append_assoc]
  exact fun h => List.cons_ne_nil _ _ h

theorem mem_chartSection (s title : String) (o : Option GraphResponse) :
    s ∈ chartSection title o ↔ ∃ g, o = some g ∧ (s = title ∨ s = imgRef g ∨ s = "") := by
  cases o <;> simp [chartSection]

theorem mem_ioRowBlock (s : String) (row : GraphResponse → GraphResponse → String)
    (o p : Option GraphResponse) :
    s ∈ ioRowBlock row o p ↔ ∃ r w, o = some r ∧ p = some w ∧ s = row r w := by
  cases o <;> cases p <;> simp [ioRowBlock]

theorem mem_statsSection (s : String) (cT mT nT dT : List (List String)) (o p : Option ℚ) :
    s ∈ statsSection cT mT nT dT o p ↔
      ∃ st en, o = some st ∧ p = some en ∧
        (s = "### Performance Statistics" ∨
         s = "Executing duration: " ++ intToString (jsRound (qDiv (qAdd en (qNeg st)) 1000))
            ++ "s" ∨
         s = markdownTable (statsTableContent cT mT nT dT)) := by
  cases o <;> cases p <;> simp [statsSection]

theorem mem_ite_nil {α : Type} (a : α) (c : Prop) [Decidable c] (l : List α) :
    (a ∈ if c then l else []) ↔ c ∧ a ∈ l := by
  by_cases h : c <;> simp [h]

/-! ### C8 -/

set_option maxRecDepth 4000 in
/-- C8: in the composed report, the combined IO table header is emitted iff
(both network charts succeeded) or (both disk charts succeeded); a Network
I/O row is emitted iff both network charts succeeded, and a Disk I/O row
iff both disk charts succeeded — so when the network charts fail while both
disk charts succeed, the report contains the IO header and the Disk row but
no Network row, as the final concrete-scenario conjunct shows end to end. -/
theorem c8_io_gating (cL mU nR nW dR dW : Option GraphResponse)
    (cT mT nT dT : List (List String)) (step : WorkflowStep) :
    ("### IO Metrics" ∈ postContentItems cL mU nR nW dR dW cT mT nT dT step ↔
      ((nR.isSome ∧ nW.isSome) ∨ (dR.isSome ∧ dW.isSome))) ∧
    ((∃ r w, networkRow r w ∈ postContentItems cL mU nR nW dR dW cT mT nT dT step) ↔
      (nR.isSome ∧ nW.isSome)) ∧
    ((∃ r w, diskRow r w ∈ postContentItems cL mU nR nW dR dW cT mT nT dT step) ↔
      (dR.isSome ∧ dW.isSome)) ∧
    reportItems envDiskOnly jobRun = .ok
      ["### IO Metrics",
       "|               | Read      | Write     |",
       "|---            |---        |---        |",
       "| Disk I/O      | ![d1](du1)              | ![d2](du2)              |",
       "### Performance Statistics",
       "Executing duration: 2s",
       "| Domain | MaxValue | AvgValue |\n| --- | --- | --- |\n| CPU(user) | 0.00% | NaN% |\n| CPU(sys) | 0.00% | NaN% |\n| Memory | 0.00M(NaN%) | NaNM(NaN%) |\n| Network I/O Read | 1.00M | - |\n| Network I/O Write | 2.00M | - |\n| Disk I/O Read | 3.00M | - |\n| Disk I/O Write | 4.00M | - |"] := by
  refine ⟨?_, ?_, ?_, by rfl⟩
  · constructor
    · intro hmem
      rw [postContentItems] at hmem
      simp only [List.mem_append, mem_chartSection, mem_ioRowBlock, mem_statsSection,
        mem_ite_nil, List.mem_cons, List.not_mem_nil, or_false] at hmem
      rcases hmem with ((((⟨g, _, h⟩ | ⟨g, _, h⟩) | ⟨hc, _⟩) | ⟨r, w, _, _, h⟩) |
          ⟨r, w, _, _, h⟩) | ⟨st, en, _, _, h⟩
      · rcases h with h | h | h
        · exact absurd h (by decide)
        · obtain ⟨x, hx⟩ := imgRef_shape g
          rw [hx] at h
          exact absurd h.symm (append_ne_left _ _ _ (by decide))
        · exact absurd h (by decide)
      · rcases h with h | h | h
        · exact absurd h (by decide)
        · obtain ⟨x, hx⟩ := imgRef_shape g
          rw [hx] at h
          exact absurd h.symm (append_ne_left _ _ _ (by decide))
        · exact absurd h (by decide)
      · exact hc
      · obtain ⟨x, hx⟩ := networkRow_shape r w
        rw [hx] at h
        exact absurd h.symm (append_ne_left _ _ _ (by decide))
      · obtain ⟨x, hx⟩ := diskRow_shape r w
        rw [hx] at h
        exact absurd h.symm (append_ne_left _ _ _ (by decide))
      · rcases h with h | h | h
        · exact absurd h (by decide)
        · obtain ⟨x, hx⟩ := durationLine_shape (jsRound (qDiv (qAdd en (qNeg st)) 1000))
          rw [hx] at h
          exact absurd h.symm (append_ne_left _ _ _ (by decide))
        · obtain ⟨x, hx⟩ := statsTable_shape cT mT nT dT
          rw [hx] at h
          exact absurd h.symm (append_ne_left _ _ _ (by decide))
    · intro hc
      rw [postContentItems]
      simp only [List.mem_append, mem_ite_nil]
      exact Or.inl (Or.inl (Or.inl (Or.inr ⟨hc, by simp⟩)))
  · constructor
    · rintro ⟨r, w, hmem⟩
      obtain ⟨xn, hxn⟩ := networkRow_shape r w
      rw [postContentItems] at hmem
      simp only [List.mem_append, mem_chartSection, mem_ioRowBlock, mem_statsSection,
        mem_ite_nil, List.mem_cons, List.not_mem_nil, or_false] at hmem
      rcases hmem with ((((⟨g, _, h⟩ | ⟨g, _, h⟩) | ⟨_, h⟩) | ⟨r2, w2, hr2, hw2, h⟩) |
          ⟨r2, w2, _, _, h⟩) | ⟨st, en, _, _, h⟩
      · rcases h with h | h | h
        · rw [hxn] at h
          exact absurd h (append_ne_left _ _ _ (by decide))
        · obtain ⟨x, hx⟩ := imgRef_shape g
          rw [hxn, hx] at h
          exact absurd h (append_ne_append _ _ _ _ (by decide) (by decide))
        · rw [hxn] at h
          exact absurd h (append_ne_left _ _ _ (by decide))
      · rcases h with h | h | h
        · rw [hxn] at h
          exact absurd h (append_ne_left _ _ _ (by decide))
        · obtain ⟨x, hx⟩ := imgRef_shape g
          rw [hxn, hx] at h
          exact absurd h (append_ne_append _ _ _ _ (by decide) (by decide))
        · rw [hxn] at h
          exact absurd h (append_ne_left _ _ _ (by decide))
      · rcases h with h | h | h
        · rw [hxn] at h
          exact absurd h (append_ne_left _ _ _ (by decide))
        · rw [hxn] at h
          exact absurd h (append_ne_left _ _ _ (by decide))
        · rw [hxn] at h
          exact absurd h (append_ne_left _ _ _ (by decide))
      · exact ⟨by simp [hr2], by simp [hw2]⟩
      · obtain ⟨xd, hxd⟩ := diskRow_shape r2 w2
        rw [hxn, hxd] at h
        exact absurd h (append_ne_append _ _ _ _ (by decide) (by decide))
      · rcases h with h | h | h
        · rw [hxn] at h
          exact absurd h (append_ne_left _ _ _ (by decide))
        · obtain ⟨x, hx⟩ := durationLine_shape (jsRound (qDiv (qAdd en (qNeg st)) 1000))
          rw [hxn, hx] at h
          exact absurd h (append_ne_append _ _ _ _ (by decide) (by decide))
        · obtain ⟨x, hx⟩ := statsTable_shape cT mT nT dT
          rw [hxn, hx] at h
          exact absurd h (append_ne_append _ _ _ _ (by decide) (by decide))
    · rintro ⟨hr, hw⟩
      obtain ⟨r, hr2⟩ := Option.isSome_iff_exists.mp hr
      obtain ⟨w, hw2⟩ := Option.isSome_iff_exists.mp hw
      refine ⟨r, w, ?_⟩
      rw [postContentItems]
      simp only [List.mem_append, mem_ioRowBlock]
      exact Or.inl (Or.inl (Or.inr ⟨r, w, hr2, hw2, rfl⟩))
  · constructor
    · rintro ⟨r, w, hmem⟩
      obtain ⟨xn, hxn⟩ := diskRow_shape r w
      rw [postContentItems] at hmem
      simp only [List.mem_append, mem_chartSection, mem_ioRowBlock, mem_statsSection,
        mem_ite_nil, List.mem_cons, List.not_mem_nil, or_false] at hmem
      rcases hmem with ((((⟨g, _, h⟩ | ⟨g, _, h⟩) | ⟨_, h⟩) | ⟨r2, w2, _, _, h⟩) |
          ⟨r2, w2, hr2, hw2, h⟩) | ⟨st, en, _, _, h⟩
      · rcases h with h | h | h
        · rw [hxn] at h
          exact absurd h (append_ne_left _ _ _ (by decide))
        · obtain ⟨x, hx⟩ := imgRef_shape g
          rw [hxn, hx] at h
          exact absurd h (append_ne_append _ _ _ _ (by decide) (by decide))
        · rw [hxn] at h
          exact absurd h (append_ne_left _ _ _ (by decide))
      · rcases h with h | h | h
        · rw [hxn] at h
          exact absurd h (append_ne_left _ _ _ (by decide))
        · obtain ⟨x, hx⟩ := imgRef_shape g
          rw [hxn, hx] at h
          exact absurd h (append_ne_append _ _ _ _ (by decide) (by decide))
        · rw [hxn] at h
          exact absurd h (append_ne_left _ _ _ (by decide))
      · rcases h with h | h | h
        · rw [hxn] at h
          exact absurd h (append_ne_left _ _ _ (by decide))
        · rw [hxn] at h
          exact absurd h (append_ne_left _ _ _ (by decide))
        · rw [hxn] at h
          exact absurd h (append_ne_left _ _ _ (by decide))
      · obtain ⟨xd, hxd⟩ := networkRow_shape r2 w2
        rw [hxn, hxd] at h
        exact absurd h (append_ne_append _ _ _ _ (by decide) (by decide))
      · exact ⟨by simp [hr2], by simp [hw2]⟩
      · rcases h with h | h | h
        · rw [hxn] at h
          exact absurd h (append_ne_left _ _ _ (by decide))
        · obtain ⟨x, hx⟩ := durationLine_shape (jsRound (qDiv (qAdd en (qNeg st)) 1000))
          rw [hxn, hx] at h
          exact absurd h (append_ne_append _ _ _ _ (by decide) (by decide))
        · obtain ⟨x, hx⟩ := statsTable_shape cT mT nT dT
          rw [hxn, hx] at h
          exact absurd h (append_ne_append _ _ _ _ (by decide) (by decide))
    · rintro ⟨hr, hw⟩
      obtain ⟨r, hr2⟩ := Option.isSome_iff_exists.mp hr
      obtain ⟨w, hw2⟩ := Option.isSome_iff_exists.mp hw
      refine ⟨r, w, ?_⟩
      rw [postContentItems]
      simp only [List.mem_append, mem_ioRowBlock]
      exact Or.inl (Or.inr ⟨r, w, hr2, hw2, rfl⟩)

/-! ### C1 -/

/-- C1 (counterexample): with the CPU fetch failing and all three other
domains holding non-empty in-window data and successful charts, the whole
report is aborted — `report` returns `null`, so the other domains are not
fetched into, aggregated into, or reflected in any report. -/
theorem c1_counterexample : report envCpuFail (some jobRun) = none := by decide

/-- C1 (amended): a sample-fetch failure in any one domain aborts the whole
report generation: `reportWorkflowMetrics` propagates the exception and the
top-level `report` call returns `null`; no domain is reflected. -/
theorem c1_fetch_failure_aborts (env : Env) (job : WorkflowJobType) (step : WorkflowStep)
    (hfind : findValidJob job = some step)
    (hfail : env.cpuFetch = .error () ∨ env.memoryFetch = .error () ∨
      env.networkFetch = .error () ∨ env.diskFetch = .error ()) :
    reportWorkflowMetrics env job = .error () ∧ report env (some job) = none := by
  have hitems : reportItems env job = .error () := by
    rw [reportItems, hfind]
    cases hc : env.cpuFetch with
    | error e => cases e; rfl
    | ok cpuD =>
      cases hm : env.memoryFetch with
      | error e => cases e; rfl
      | ok memD =>
        cases hn : env.networkFetch with
        | error e => cases e; rfl
        | ok netD =>
          cases hd : env.diskFetch with
          | error e => cases e; rfl
          | ok diskD =>
            rcases hfail with h | h | h | h
            · rw [h] at hc; cases hc
            · rw [h] at hm; cases hm
            · rw [h] at hn; cases hn
            · rw [h] at hd; cases hd
  constructor
  · rw [reportWorkflowMetrics, hitems]
    rfl
  · rw [report, reportWorkflowMetrics, hitems]
    rfl

/-- Witness for the amended C1. -/
theorem c1_fetch_failure_aborts_witness :
    reportWorkflowMetrics envCpuFail jobRun = .error () := by
  exact (c1_fetch_failure_aborts envCpuFail jobRun ⟨"Run test", some 0, some 2000⟩
    (by decide) (Or.inl rfl)).1

/-! ### C4 -/

/-- C4: when the step lookup resolves to no matching step, report
generation does not fail: it returns the empty item list, the empty report
string, and `report` yields that empty string — in particular the
duration/statistics-table section is absent (as is every other section,
none having been produced). -/
theorem c4_no_valid_step (env : Env) (job : WorkflowJobType)
    (h : findValidJob job = none) :
    reportItems env job = .ok [] ∧ reportWorkflowMetrics env job = .ok "" ∧
    report env (some job) = some "" := by
  have h1 : reportItems env job = .ok [] := by rw [reportItems, h]
  refine ⟨h1, ?_, ?_⟩
  · rw [reportWorkflowMetrics, h1]
    rfl
  · rw [report, reportWorkflowMetrics, h1]
    rfl

/-- Witness for C4: a job whose only step has the wrong name. -/
theorem c4_no_valid_step_witness :
    report envEmpty (some ⟨some [⟨"Build", some 0, some 1⟩]⟩) = some "" :=
  (c4_no_valid_step envEmpty ⟨some [⟨"Build", some 0, some 1⟩]⟩ (by decide)).2.2

/-! ### C2 -/

/-- C2 (counterexample): with a valid step and all four fetches succeeding
with zero in-window samples, a report IS produced and the string `NaN`
(from the unguarded `sum/0` and `0/0` divisions) appears in it. -/
theorem c2_counterexample :
    (report envEmpty (some jobRun)).isSome = true ∧
    containsStr ((report envEmpty (some jobRun)).getD "") "NaN" = true := by decide

/-! ### C2 (amended part) -/

/-- C2 (amended): with zero in-window samples no aggregation raises (all
aggregators are total functions), but the divisions are NOT guarded: the
zero-sample summaries render `NaN` — the CPU average cells read `NaN%` and
the memory row reads `0.00M(NaN%)` / `NaNM(NaN%)`; only the network and
disk rows (whose average column is the literal `-`) are NaN-free. -/
theorem c2_zero_samples_render_nan (cpuData : List CPUStats) (memData : List MemoryStats)
    (netData : List NetworkStats) (diskData : List DiskStats) (s t : ℚ)
    (hc : inWindow CPUStats.time s t cpuData = [])
    (hm : inWindow MemoryStats.time s t memData = [])
    (hn : inWindow NetworkStats.time s t netData = [])
    (hd : inWindow DiskStats.time s t diskData = []) :
    (getCPUStats cpuData s t).cpuTableContent
      = [["CPU(user)", "0.00%", "NaN%"], ["CPU(sys)", "0.00%", "NaN%"]] ∧
    (getMemoryStats memData s t).memoryTableContent
      = [["Memory", "0.00M(NaN%)", "NaNM(NaN%)"]] ∧
    (getNetworkStats netData s t).networkTableContent
      = [["Network I/O Read", "0.00M", "-"], ["Network I/O Write", "0.00M", "-"]] ∧
    (getDiskStats diskData s t).diskTableContent
      = [["Disk I/O Read", "0.00M", "-"], ["Disk I/O Write", "0.00M", "-"]] := by
  refine ⟨?_, ?_, ?_, ?_⟩
  · rw [getCPUStats, cpu_foldl_char, hc]
    decide
  · rw [getMemoryStats, mem_foldl_char, hm]
    decide
  · rw [getNetworkStats, net_foldl_char, hn]
    decide
  · rw [getDiskStats, disk_foldl_char, hd]
    decide

/-- Witness for the amended C2 at empty sample arrays. -/
theorem c2_zero_samples_render_nan_witness :
    (getCPUStats [] 0 0).cpuTableContent
      = [["CPU(user)", "0.00%", "NaN%"], ["CPU(sys)", "0.00%", "NaN%"]] :=
  (c2_zero_samples_render_nan [] [] [] [] 0 0 rfl rfl rfl rfl).1

/-! ### C3 support -/

theorem capStep_foldl_num : ∀ (caps : List ℚ) (m q0 : ℚ),
    (caps.map JNum.num).foldl capStep (.num m, .num q0)
      = (.num (caps.foldl ratMax m), .num (qAdd q0 (prefixMaxSum m caps)))
  | [], m, q0 => by
    simp only [List.map_nil, List.foldl_nil, prefixMaxSum]
    rw [show qAdd q0 0 = q0 by rw [qAdd_eq]; ring]
  | c :: rest, m, q0 => by
    simp only [List.map_cons, List.foldl_cons]
    rw [show capStep (.num m, .num q0) (.num c)
        = (.num (ratMax m c), .num (qAdd q0 (ratMax m c))) from rfl]
    rw [capStep_foldl_num rest (ratMax m c) (qAdd q0 (ratMax m c))]
    refine Prod.ext rfl ?_
    simp only [prefixMaxSum]
    rw [show (JNum.num (qAdd (qAdd q0 (ratMax m c)) (prefixMaxSum (ratMax m c) rest)))
        = (JNum.num (qAdd q0 (max m c + prefixMaxSum (max m c) rest))) by
      rw [qAdd_eq, qAdd_eq, qAdd_eq, ratMax_eq]
      ring_nf]

theorem presence_inWindow {α : Type} (time : α → ℚ) (s t : ℚ) (data : List α)
    (f : α → Option ℚ) (h : ∀ e ∈ data, s ≤ time e → time e ≤ t → (f e).isSome) :
    ∀ e ∈ inWindow time s t data, (f e).isSome := by
  intro e he
  rw [inWindow, List.mem_filter] at he
  have hb := he.2
  simp only [Bool.and_eq_true, decide_eq_true_eq] at hb
  exact h e he.1 hb.1 hb.2

theorem map_ofOption_eq {α : Type} (l : List α) (f : α → Option ℚ)
    (h : ∀ e ∈ l, (f e).isSome) :
    l.map (fun e => JNum.ofOption (f e)) = (l.map fun e => (f e).getD 0).map JNum.num := by
  rw [List.map_map]
  apply List.map_congr_left
  intro e he
  cases hf : f e with
  | none =>
    have := h e he
    rw [hf] at this
    cases this
  | some v => simp [JNum.ofOption, hf, Function.comp]

/-! ### C3 -/

/-- C3: the memory average-usage percentage divides the sum of the floored
used values by the running sum of the capacity running maximum
(`sum(used) / sum(running-max-of-capacity)`), not `avg(used)/avg(capacity)`;
and on the spec's concrete scenario (`totalMemoryMb = 1000` constant,
`activeMemoryMb = [100, 200, 300]`) the max usage row reads exactly
`300.00M(0.30%)`. -/
theorem c3_memory_percentage_rule :
    ((getMemoryStats memScenario 0 2000).memoryTableContent
      = [["Memory", "300.00M(0.30%)", "200.00M(0.20%)"]]) ∧
    (∀ (data : List MemoryStats) (s t : ℚ),
      (∀ e ∈ data, s ≤ e.time → e.time ≤ t → e.totalMemoryMb.isSome) →
      (getMemoryStats data s t).memoryTableContent =
        [["Memory",
          fixed2 (((inWindow MemoryStats.time s t data).map
              (fun e => floorVal e.activeMemoryMb)).foldl ratMax 0) ++ "M(" ++
            (jsDiv (.num (((inWindow MemoryStats.time s t data).map
                (fun e => floorVal e.activeMemoryMb)).foldl ratMax 0))
              (.num (((inWindow MemoryStats.time s t data).map
                (fun e => e.totalMemoryMb.getD 0)).foldl ratMax 0))).toFixed2 ++ "%)",
          (jsDiv (.num (((inWindow MemoryStats.time s t data).map
              (fun e => floorVal e.activeMemoryMb)).foldl qAdd 0))
            (.num ((inWindow MemoryStats.time s t data).length : ℚ))).toFixed2 ++ "M(" ++
            (jsDiv (.num (((inWindow MemoryStats.time s t data).map
                (fun e => floorVal e.activeMemoryMb)).foldl qAdd 0))
              (.num (prefixMaxSum 0 ((inWindow MemoryStats.time s t data).map
                (fun e => e.totalMemoryMb.getD 0))))).toFixed2 ++ "%)"]]) := by
  constructor
  · decide
  · intro data s t hpres
    have hpres2 := presence_inWindow MemoryStats.time s t data
      (fun e => e.totalMemoryMb) hpres
    have hmap := map_ofOption_eq (inWindow MemoryStats.time s t data)
      (fun e => e.totalMemoryMb) hpres2
    rw [getMemoryStats, mem_foldl_char]
    simp only [List.append_nil, List.nil_append, Nat.zero_add]
    rw [hmap, capStep_foldl_num]
    rw [show qAdd 0 (prefixMaxSum 0 ((inWindow MemoryStats.time s t data).map
        (fun e => e.totalMemoryMb.getD 0))) = prefixMaxSum 0
          ((inWindow MemoryStats.time s t data).map (fun e => e.totalMemoryMb.getD 0)) by
      rw [qAdd_eq]; ring]

/-- Witness for C3: the general percentage rule applied to the concrete
scenario reproduces the concrete row. -/
theorem c3_memory_percentage_rule_witness :
    (getMemoryStats memScenario 0 2000).memoryTableContent
      = [["Memory", "300.00M(0.30%)", "200.00M(0.20%)"]] := by
  have h := c3_memory_percentage_rule.2 memScenario 0 2000 (by decide)
  rw [h]
  rw [show (inWindow MemoryStats.time 0 2000 memScenario).map
      (fun e => e.totalMemoryMb.getD 0) = [1000, 1000, 1000] from by decide]
  rw [show prefixMaxSum 0 [1000, 1000, 1000] = 3000 from by norm_num [prefixMaxSum]]
  decide

theorem foldl_jsMax_map_num : ∀ (l : List ℚ) (q : ℚ),
    (l.map JNum.num).foldl jsMax (.num q) = .num (l.foldl ratMax q)
  | [], _ => rfl
  | c :: rest, q => by
    simp only [List.map_cons, List.foldl_cons]
    exact foldl_jsMax_map_num rest (ratMax q c)

theorem foldl_ratMax_nonneg : ∀ (l : List ℚ) (q : ℚ), 0 ≤ q → 0 ≤ l.foldl ratMax q
  | [], _, h => h
  | c :: rest, q, h => by
    simp only [List.foldl_cons]
    apply foldl_ratMax_nonneg rest
    rw [ratMax]
    by_cases hc : q < c
    · rw [if_pos hc]; exact h.trans hc.le
    · rw [if_neg hc]; exact h

/-! ### C5 -/

/-- C5 (counterexample): with a single in-window sample whose `userLoad`
field is absent, the reported CPU user maximum renders as `NaN%` — the raw
(unfloored) field is fed to `Math.max`, so an absent field corrupts the
reported maximum, contrary to the claim. -/
theorem c5_counterexample :
    (getCPUStats [⟨0, none, none, some 5⟩] 0 0).cpuTableContent
      = [["CPU(user)", "NaN%", "0.00%"], ["CPU(sys)", "5.00%", "5.00%"]] := by decide

/-- C5 (amended): negative or absent fields are floored to zero before use
in the series points and the running sums (the rendered CPU average cells
divide a sum of `floorVal`-floored values by the sample count), but the
running maximum is fed the RAW field: it still can never go negative (the
accumulator starts at 0), and whenever every in-window sample carries the
field the reported max renders as a finite non-negative number; an absent
field, however, renders it `NaN` (see the counterexample). -/
theorem c5_max_flooring (cpuData : List CPUStats) (memData : List MemoryStats)
    (netData : List NetworkStats) (diskData : List DiskStats) (s t : ℚ) :
    ((getCPUStats cpuData s t).userLoadX
        = (inWindow CPUStats.time s t cpuData).map
            (fun e => { x := e.time, y := floorVal e.userLoad : ProcessedStats }) ∧
     (getCPUStats cpuData s t).systemLoadX
        = (inWindow CPUStats.time s t cpuData).map
            (fun e => { x := e.time, y := floorVal e.systemLoad : ProcessedStats })) ∧
    ((∀ e ∈ cpuData, s ≤ e.time → e.time ≤ t → e.userLoad.isSome ∧ e.systemLoad.isSome) →
      ∃ qu qs, 0 ≤ qu ∧ 0 ≤ qs ∧
        (getCPUStats cpuData s t).cpuTableContent
          = [["CPU(user)", fixed2 qu ++ "%",
              (jsDiv (.num (((inWindow CPUStats.time s t cpuData).map
                  (fun e => floorVal e.userLoad)).foldl qAdd 0))
                (.num ((inWindow CPUStats.time s t cpuData).length : ℚ))).toFixed2 ++ "%"],
             ["CPU(sys)", fixed2 qs ++ "%",
              (jsDiv (.num (((inWindow CPUStats.time s t cpuData).map
                  (fun e => floorVal e.systemLoad)).foldl qAdd 0))
                (.num ((inWindow CPUStats.time s t cpuData).length : ℚ))).toFixed2 ++ "%"]]) ∧
    ((∀ e ∈ netData, s ≤ e.time → e.time ≤ t → e.rxMb.isSome ∧ e.txMb.isSome) →
      ∃ qr qw, 0 ≤ qr ∧ 0 ≤ qw ∧
        (getNetworkStats netData s t).networkTableContent
          = [["Network I/O Read", fixed2 qr ++ "M", "-"],
             ["Network I/O Write", fixed2 qw ++ "M", "-"]]) ∧
    ((∀ e ∈ diskData, s ≤ e.time → e.time ≤ t → e.rxMb.isSome ∧ e.wxMb.isSome) →
      ∃ qr qw, 0 ≤ qr ∧ 0 ≤ qw ∧
        (getDiskStats diskData s t).diskTableContent
          = [["Disk I/O Read", fixed2 qr ++ "M", "-"],
             ["Disk I/O Write", fixed2 qw ++ "M", "-"]]) ∧
    (∃ q p a2, 0 ≤ q ∧
      (getMemoryStats memData s t).memoryTableContent
        = [["Memory", fixed2 q ++ "M(" ++ p ++ "%)", a2]]) := by
  refine ⟨⟨?_, ?_⟩, ?_, ?_, ?_, ?_⟩
  · rw [getCPUStats, cpu_foldl_char]
    simp
  · rw [getCPUStats, cpu_foldl_char]
    simp
  · intro hpres
    have hu := map_ofOption_eq (inWindow CPUStats.time s t cpuData) (fun e => e.userLoad)
      (presence_inWindow CPUStats.time s t cpuData _
        (fun e he h1 h2 => (hpres e he h1 h2).1))
    have hs := map_ofOption_eq (inWindow CPUStats.time s t cpuData) (fun e => e.systemLoad)
      (presence_inWindow CPUStats.time s t cpuData _
        (fun e he h1 h2 => (hpres e he h1 h2).2))
    rw [getCPUStats, cpu_foldl_char]
    simp only [Nat.zero_add]
    rw [hu, hs, foldl_jsMax_map_num, foldl_jsMax_map_num]
    exact ⟨_, _, foldl_ratMax_nonneg _ _ le_rfl, foldl_ratMax_nonneg _ _ le_rfl, rfl⟩
  · intro hpres
    have hu := map_ofOption_eq (inWindow NetworkStats.time s t netData) (fun e => e.rxMb)
      (presence_inWindow NetworkStats.time s t netData _
        (fun e he h1 h2 => (hpres e he h1 h2).1))
    have hs := map_ofOption_eq (inWindow NetworkStats.time s t netData) (fun e => e.txMb)
      (presence_inWindow NetworkStats.time s t netData _
        (fun e he h1 h2 => (hpres e he h1 h2).2))
    rw [getNetworkStats, net_foldl_char]
    simp only []
    rw [hu, hs, foldl_jsMax_map_num, foldl_jsMax_map_num]
    exact ⟨_, _, foldl_ratMax_nonneg _ _ le_rfl, foldl_ratMax_nonneg _ _ le_rfl, rfl⟩
  · intro hpres
    have hu := map_ofOption_eq (inWindow DiskStats.time s t diskData) (fun e => e.rxMb)
      (presence_inWindow DiskStats.time s t diskData _
        (fun e he h1 h2 => (hpres e he h1 h2).1))
    have hs := map_ofOption_eq (inWindow DiskStats.time s t diskData) (fun e => e.wxMb)
      (presence_inWindow DiskStats.time s t diskData _
        (fun e he h1 h2 => (hpres e he h1 h2).2))
    rw [getDiskStats, disk_foldl_char]
    simp only []
    rw [hu, hs, foldl_jsMax_map_num, foldl_jsMax_map_num]
    exact ⟨_, _, foldl_ratMax_nonneg _ _ le_rfl, foldl_ratMax_nonneg _ _ le_rfl, rfl⟩
  · rw [getMemoryStats, mem_foldl_char]
    simp only []
    exact ⟨_, _, _, foldl_ratMax_nonneg _ _ le_rfl, rfl⟩

/-- Witness for the amended C5: with all fields present (one negative user
load among them), the CPU max cells render finite non-negative numbers. -/
theorem c5_max_flooring_witness :
    ∃ qu qs, 0 ≤ qu ∧ 0 ≤ qs ∧
      (getCPUStats [⟨0, none, some (-3), some 5⟩] 0 0).cpuTableContent
        = [["CPU(user)", fixed2 qu ++ "%",
            (jsDiv (.num (((inWindow CPUStats.time 0 0 [⟨0, none, some (-3), some 5⟩]).map
                (fun e => floorVal e.userLoad)).foldl qAdd 0))
              (.num ((inWindow CPUStats.time 0 0
                [⟨0, none, some (-3), some 5⟩]).length : ℚ))).toFixed2 ++ "%"],
           ["CPU(sys)", fixed2 qs ++ "%",
            (jsDiv (.num (((inWindow CPUStats.time 0 0 [⟨0, none, some (-3), some 5⟩]).map
                (fun e => floorVal e.systemLoad)).foldl qAdd 0))
              (.num ((inWindow CPUStats.time 0 0
                [⟨0, none, some (-3), some 5⟩]).length : ℚ))).toFixed2 ++ "%"]] :=
  (c5_max_flooring [⟨0, none, some (-3), some 5⟩] [] [] [] 0 0).2.1
    (by intro e he h1 h2; simp at he; simp [he])

theorem statsTableContent_eq (cT mT nT dT : List (List String)) (hc : cT ≠ [])
    (hm : mT ≠ []) (hn : nT ≠ []) (hd : dT ≠ []) :
    statsTableContent cT mT nT dT
      = ["Domain", "MaxValue", "AvgValue"] :: (cT ++ mT ++ nT ++ dT) := by
  rw [statsTableContent, if_pos hc, if_pos hm, if_pos hn, if_pos hd]
  simp [List.append_assoc]

/-! ### C10 -/

/-- C10: every domain aggregator returns a non-empty summary for every
input — CPU exactly two rows, Memory one, Network and Disk two rows each
with the `AvgValue` column the literal `-` — the statistics table is the
fixed header followed by all four domains' rows (eight rows in all); the
step lookup guarantees both timestamps, so whenever a valid step is found
the duration gate holds and the table is emitted into the report items. -/
theorem c10_summaries_always_emitted (cpuData : List CPUStats) (memData : List MemoryStats)
    (netData : List NetworkStats) (diskData : List DiskStats) (s t : ℚ) :
    (∃ m1 a1 m2 a2, (getCPUStats cpuData s t).cpuTableContent
        = [["CPU(user)", m1, a1], ["CPU(sys)", m2, a2]]) ∧
    (∃ m a, (getMemoryStats memData s t).memoryTableContent = [["Memory", m, a]]) ∧
    (∃ m1 m2, (getNetworkStats netData s t).networkTableContent
        = [["Network I/O Read", m1, "-"], ["Network I/O Write", m2, "-"]]) ∧
    (∃ m1 m2, (getDiskStats diskData s t).diskTableContent
        = [["Disk I/O Read", m1, "-"], ["Disk I/O Write", m2, "-"]]) ∧
    (statsTableContent (getCPUStats cpuData s t).cpuTableContent
        (getMemoryStats memData s t).memoryTableContent
        (getNetworkStats netData s t).networkTableContent
        (getDiskStats diskData s t).diskTableContent
      = ["Domain", "MaxValue", "AvgValue"] ::
        ((getCPUStats cpuData s t).cpuTableContent ++
         (getMemoryStats memData s t).memoryTableContent ++
         (getNetworkStats netData s t).networkTableContent ++
         (getDiskStats diskData s t).diskTableContent)) ∧
    ((statsTableContent (getCPUStats cpuData s t).cpuTableContent
        (getMemoryStats memData s t).memoryTableContent
        (getNetworkStats netData s t).networkTableContent
        (getDiskStats diskData s t).diskTableContent).length = 8) ∧
    (∀ (job : WorkflowJobType) (step : WorkflowStep), findValidJob job = some step →
      step.started_at.isSome ∧ step.completed_at.isSome) ∧
    (∀ (cL mU nR nW dR dW : Option GraphResponse) (step : WorkflowStep) (st en : ℚ),
      step.started_at = some st → step.completed_at = some en →
      markdownTable (statsTableContent (getCPUStats cpuData s t).cpuTableContent
          (getMemoryStats memData s t).memoryTableContent
          (getNetworkStats netData s t).networkTableContent
          (getDiskStats diskData s t).diskTableContent)
        ∈ postContentItems cL mU nR nW dR dW (getCPUStats cpuData s t).cpuTableContent
            (getMemoryStats memData s t).memoryTableContent
            (getNetworkStats netData s t).networkTableContent
            (getDiskStats diskData s t).diskTableContent step) := by
  have hstats : statsTableContent (getCPUStats cpuData s t).cpuTableContent
      (getMemoryStats memData s t).memoryTableContent
      (getNetworkStats netData s t).networkTableContent
      (getDiskStats diskData s t).diskTableContent
      = ["Domain", "MaxValue", "AvgValue"] ::
        ((getCPUStats cpuData s t).cpuTableContent ++
         (getMemoryStats memData s t).memoryTableContent ++
         (getNetworkStats netData s t).networkTableContent ++
         (getDiskStats diskData s t).diskTableContent) :=
    statsTableContent_eq _ _ _ _ (by rw [getCPUStats]; simp)
      (by rw [getMemoryStats]; simp) (by rw [getNetworkStats]; simp)
      (by rw [getDiskStats]; simp)
  refine ⟨?_, ?_, ?_, ?_, hstats, ?_, ?_, ?_⟩
  · exact ⟨_, _, _, _, rfl⟩
  · exact ⟨_, _, rfl⟩
  · exact ⟨_, _, rfl⟩
  · exact ⟨_, _, rfl⟩
  · rw [hstats]
    rw [getCPUStats, getMemoryStats, getNetworkStats, getDiskStats]
    simp
  · intro job step hfind
    rw [findValidJob] at hfind
    cases hsteps : job.steps with
    | none => rw [hsteps] at hfind; cases hfind
    | some steps =>
      rw [hsteps] at hfind
      have hp := List.find?_some hfind
      simp only [Bool.and_eq_true, decide_eq_true_eq] at hp
      exact ⟨hp.1.2, hp.2⟩
  · intro cL mU nR nW dR dW step st en hst hen
    rw [postContentItems]
    refine List.mem_append_right _ ?_
    rw [hst, hen, statsSection]
    simp

/-- Witness for C10: the duration gate holds for the looked-up step of a
concrete job. -/
theorem c10_summaries_always_emitted_witness :
    (⟨"Run test", some 0, some 2000⟩ : WorkflowStep).started_at.isSome ∧
    (⟨"Run test", some 0, some 2000⟩ : WorkflowStep).completed_at.isSome :=
  (c10_summaries_always_emitted [] [] [] [] 0 0).2.2.2.2.2.2.1 jobRun
    ⟨"Run test", some 0, some 2000⟩ (by decide)

end StatCollector
